import Mathlib

/-!
Verification of the storybook generation pipeline (cuentos_infantiles).

Shallow embedding notes:
* Python strings are modeled as lists of characters (`PStr`).  Python's
  `str.split()` (split on whitespace runs, dropping empty pieces) is modeled
  by `splitWords`; joining accumulated words with single spaces — the code's
  `current_line + " " + word` — is modeled by `joinLine`.
* Font metrics (`canvas.stringWidth`) are an external capability of reportlab;
  they are modeled as an arbitrary width function `sw : PStr → Nat` (one per
  font size where the size matters).  Widths and geometry are modeled as `Nat`;
  the source compares with strict `<` against `max_width` and `≤` against
  `max_height`, which is preserved.
* Fallible external calls (Gemini/Ideogram image generation, PDF creation)
  are modeled as functions returning `Option` values, indexed by attempt
  number where the code retries.
-/

/-- Python strings, modeled as lists of characters. -/
abbrev PStr := List Char

/-- Python `str.split()` worker: walk the characters, accumulating the current
word in reverse; whitespace ends the current word (empty pieces dropped). -/
def splitWordsGo : PStr → PStr → List PStr
  | [], acc => if acc = [] then [] else [acc.reverse]
  | c :: cs, acc =>
    if c.isWhitespace then
      if acc = [] then splitWordsGo cs []
      else acc.reverse :: splitWordsGo cs []
    else splitWordsGo cs (c :: acc)

/-- Python `text.split()`: whitespace-separated words, no empty pieces. -/
def splitWords (s : PStr) : List PStr := splitWordsGo s []

/-- Join words with single spaces; `joinLine [w]` is `w`, matching the code's
`test_line = current_line + " " + word if current_line else word`. -/
def joinLine : List PStr → PStr
  | [] => []
  | [w] => w
  | w :: ws => w ++ ' ' :: joinLine ws

/-- `PDFGenerator._wrap_text` loop (pdf_generator.py:144-160).  `cur` holds the
words of `current_line` (so `joinLine cur` is the Python `current_line`
string); `sw` is reportlab's `stringWidth` at the fixed font name and size. -/
def wrapGo (sw : PStr → Nat) (maxW : Nat) (cur : List PStr) : List PStr → List PStr
  | [] => if cur = [] then [] else [joinLine cur]
  | w :: ws =>
    if sw (joinLine (cur ++ [w])) < maxW then
      wrapGo sw maxW (cur ++ [w]) ws
    else if cur = [] then
      wrapGo sw maxW [w] ws
    else
      joinLine cur :: wrapGo sw maxW [w] ws

/-- `PDFGenerator._wrap_text` (pdf_generator.py:135-160): split into words,
then greedily accumulate lines whose measured width stays under `maxW`. -/
def wrap_text (sw : PStr → Nat) (maxW : Nat) (text : PStr) : List PStr :=
  wrapGo sw maxW [] (splitWords text)

/-- The candidate font sizes tried by `_get_optimal_font_size`. -/
def fontCandidates : List Nat := [18, 16, 14, 12]

/-- The acceptance test of `_get_optimal_font_size` for one candidate size:
the wrapped line count fits `maxLines` and the total height
`len(lines) * (font_size + 4)` fits `maxH`.  `sw fs` is reportlab's
`stringWidth` at font size `fs`. -/
def fontFits (sw : Nat → PStr → Nat) (text : PStr) (maxW maxH maxLines fs : Nat) : Bool :=
  let lines := wrap_text (sw fs) maxW text
  decide (lines.length ≤ maxLines) && decide (lines.length * (fs + 4) ≤ maxH)

/-- The `for font_size in [18, 16, 14, 12]` loop body of
`_get_optimal_font_size`: return the first fitting candidate. -/
def fontLoop (sw : Nat → PStr → Nat) (text : PStr) (maxW maxH maxLines : Nat) :
    List Nat → Nat
  | [] => 12
  | fs :: rest =>
    if fontFits sw text maxW maxH maxLines fs then fs
    else fontLoop sw text maxW maxH maxLines rest

/-- `PDFGenerator._get_optimal_font_size` (pdf_generator.py:116-133). -/
def get_optimal_font_size (sw : Nat → PStr → Nat) (text : PStr)
    (maxW maxH maxLines : Nat) : Nat :=
  fontLoop sw text maxW maxH maxLines [18, 16, 14, 12]

/-!
Retry wrapper (`GeminiImageService.generate_page_image_with_retry`,
gemini_image.py:298-329; the copy in services.py:458-479 is line-for-line
identical).  The wrapped operation is modeled as `op : Nat → Option α`
(attempt number, starting at 1, to outcome); `none` covers both a `None`
return and a raised exception, which the loop treats identically.
`retryGo op attempt remaining` returns the result together with the number
of invocations made and the total time units slept (`asyncio.sleep(2)`
between consecutive attempts, skipped after the last one).
-/

/-- The `for attempt in range(1, max_retries + 1)` loop of the retry wrapper. -/
def retryGo (op : Nat → Option α) : Nat → Nat → Option α × Nat × Nat
  | _, 0 => (none, 0, 0)
  | attempt, r + 1 =>
    match op attempt with
    | some x => (some x, 1, 0)
    | none =>
      if r = 0 then (none, 1, 0)
      else
        let t := retryGo op (attempt + 1) r
        (t.1, t.2.1 + 1, t.2.2 + 2)

/-- `generate_page_image_with_retry` (gemini_image.py:298-329 and
services.py:458-479): result, invocation count, total sleep units. -/
def generate_page_image_with_retry (op : Nat → Option α) (max_retries : Nat) :
    Option α × Nat × Nat :=
  retryGo op 1 max_retries

/-- Just the result of the retry wrapper; also models the inline
`for attempt in range(1, 4)` retry loops of the orchestrator, which have the
identical structure. -/
def retryResult (op : Nat → Option α) (max_retries : Nat) : Option α :=
  (generate_page_image_with_retry op max_retries).1

/-!
Story post-processing (`GeminiTextService._parse_full_response`,
gemini_text.py:214-283, and `_fallback_full_story`, gemini_text.py:299-336).
Only the fields the post-processing reads or writes are modeled; scalar
fields that are copied through untouched (`titulo`, `tema`, `resumen`,
`leccion`, `child_name`) are omitted.  Ids are Python ints, modeled as `Int`
since the generation service may return arbitrary values.
-/

/-- One entry of `personajes_principales` / `objetos_importantes` /
`escenarios`. -/
structure Entry where
  id : Int
  nombre : PStr
  descripcion : PStr
deriving DecidableEq

/-- One entry of `paginas`. -/
structure Page where
  numero : Int
  texto : PStr
  escena_detallada : PStr
  personajes_ids : List Int
  objetos_ids : List Int
  escenario_id : Int
deriving DecidableEq

/-- The fields of the minimal story that full-story processing reads. -/
structure MinimalStory where
  protagonista_nombre : PStr
  protagonista_descripcion : PStr
  mundo_descripcion : PStr
deriving DecidableEq

/-- The decoded JSON of a full-story response, before post-processing.
`none` for a list field models the key being absent from the JSON object. -/
structure RawFullData where
  personajes_principales : Option (List Entry)
  objetos_importantes : Option (List Entry)
  escenarios : Option (List Entry)
  paginas : List Page
deriving DecidableEq

/-- The post-processed full story. -/
structure FullStory where
  personajes_principales : List Entry
  objetos_importantes : List Entry
  escenarios : List Entry
  paginas : List Page
deriving DecidableEq

/-- `for i, p in enumerate(lst, 1): p['id'] = i` — overwrite ids with the
1-based position. -/
def renumberGo (i : Int) : List Entry → List Entry
  | [] => []
  | e :: es => { e with id := i } :: renumberGo (i + 1) es

/-- Re-numbering applied to each of the three lists after truncation. -/
def renumber (l : List Entry) : List Entry := renumberGo 1 l

/-- Default protagonist entry used when `personajes_principales` is absent
(gemini_text.py:229-236). -/
def defaultProtagonist (m : MinimalStory) : Entry :=
  { id := 1, nombre := m.protagonista_nombre, descripcion := m.protagonista_descripcion }

/-- Default scene entry used when `escenarios` is absent
(gemini_text.py:241-248). -/
def defaultEscenario (m : MinimalStory) : Entry :=
  { id := 1, nombre := "Escenario principal".toList, descripcion := m.mundo_descripcion }

/-- The synthetic page appended by the `while` padding loop
(gemini_text.py:269-277): number is the current length plus one, and it
references character id 1 and scene id 1. -/
def syntheticPage (m : MinimalStory) (k : Int) : Page :=
  { numero := k
    texto := m.protagonista_nombre ++ " continuó su aventura.".toList
    escena_detallada := "Escena de aventura".toList
    personajes_ids := [1]
    objetos_ids := []
    escenario_id := 1 }

/-- `while len(data['paginas']) < num_pages: append synthetic page`. -/
def padPages (m : MinimalStory) (n : Nat) (pages : List Page) : List Page :=
  if _h : pages.length < n then
    padPages m n (pages ++ [syntheticPage m (pages.length + 1)])
  else pages
termination_by n - pages.length
decreasing_by simp; omega

/-- `GeminiTextService._parse_full_response` (gemini_text.py:214-283): default
absent lists, truncate each list to 3 and re-number 1..k, then truncate or pad
the pages to exactly `num_pages`. -/
def parse_full_response (raw : RawFullData) (minimal : MinimalStory)
    (num_pages : Nat) : FullStory :=
  let personajes := renumber ((raw.personajes_principales.getD [defaultProtagonist minimal]).take 3)
  let objetos := renumber ((raw.objetos_importantes.getD []).take 3)
  let escenarios := renumber ((raw.escenarios.getD [defaultEscenario minimal]).take 3)
  let paginas :=
    if raw.paginas.length = num_pages then raw.paginas
    else if num_pages < raw.paginas.length then raw.paginas.take num_pages
    else padPages minimal num_pages raw.paginas
  { personajes_principales := personajes
    objetos_importantes := objetos
    escenarios := escenarios
    paginas := paginas }

/-- The fallback page of `_fallback_full_story` (gemini_text.py:304-312). -/
def fallbackPage (m : MinimalStory) (k : Int) : Page :=
  { numero := k
    texto := m.protagonista_nombre ++ " vivió una gran aventura.".toList
    escena_detallada := m.protagonista_nombre ++ " en una escena emocionante".toList
    personajes_ids := [1]
    objetos_ids := []
    escenario_id := 1 }

/-- `GeminiTextService._fallback_full_story` (gemini_text.py:299-336), used
when the response cannot be parsed at all. -/
def fallback_full_story (minimal : MinimalStory) (num_pages : Nat) : FullStory :=
  { personajes_principales :=
      [{ id := 1, nombre := minimal.protagonista_nombre,
         descripcion := minimal.protagonista_descripcion }]
    objetos_importantes := []
    escenarios :=
      [{ id := 1, nombre := "Mundo mágico".toList,
         descripcion := minimal.mundo_descripcion }]
    paginas := (List.range num_pages).map (fun i => fallbackPage minimal (i + 1)) }

/-- Referential integrity of a post-processed story, as the specification
states it: every id referenced by a page exists in the corresponding list. -/
def refIntegrity (s : FullStory) : Prop :=
  ∀ p ∈ s.paginas,
    (∀ i ∈ p.personajes_ids, ∃ e ∈ s.personajes_principales, e.id = i) ∧
    (∀ i ∈ p.objetos_ids, ∃ e ∈ s.objetos_importantes, e.id = i) ∧
    (∃ e ∈ s.escenarios, e.id = p.escenario_id)

instance (s : FullStory) : Decidable (refIntegrity s) := by
  unfold refIntegrity; infer_instance

/-!
Orchestrator state machine (`BookOrchestrator`, book_orchestrator.py, and
`BookGenerationService`, services.py).  The database row is modeled as a
`BookState`; `update_book_progress` writes become updates of `current_step`
and `progress_percentage`.  External calls are parameters:
`charOps`/`sceneOps`/`pageOps`/`coverOps` map attempt numbers to outcomes and
`pdfGen` maps the collected page filename list to the PDF outcome.  Filesystem
facts (stored story present, reference sheets present on disk) are Boolean
parameters.  Deleting the old cover file on disk has no `BookState` effect and
is not modeled.
-/

/-- The book lifecycle statuses that appear in the services. -/
inductive Status
  | preview_pending
  | preview_ready
  | preview_error
  | generating_cover
  | paid
  | generating
  | completed
  | error
deriving DecidableEq

/-- The mutable book row fields the orchestrator reads or writes. -/
structure BookState where
  status : Status
  current_step : PStr
  progress_percentage : Nat
  cover_preview_path : Option PStr
  pdf_path : Option PStr
  generation_error : Option PStr
deriving DecidableEq

/-- The top-level `except` handler of `generate_complete_book`
(book_orchestrator.py:311-320): status `error`, the exception text stored in
`generation_error`, `current_step` set to the error marker. -/
def setError (b : BookState) (msg : PStr) : BookState :=
  { b with status := Status.error
           generation_error := some msg
           current_step := "Error en generación".toList }

/-- Decimal rendering of a page number, as Python string interpolation does. -/
def natRepr (n : Nat) : PStr := (Nat.repr n).toList

/-- Python `', '.join(...)`. -/
def commaJoin : List PStr → PStr
  | [] => []
  | [x] => x
  | x :: xs => x ++ ", ".toList ++ commaJoin xs

/-- `f"Páginas fallidas: {', '.join(map(str, failed_pages))}"`
(book_orchestrator.py:286). -/
def pageFailMsg (failed : List Nat) : PStr :=
  "Páginas fallidas: ".toList ++ commaJoin (failed.map natRepr)

/-- Progress written before generating 1-based page `i` of `n`:
`int(20 + (i / total_pages) * 70)` (book_orchestrator.py:266).  The source
computes this in floating point; the truncated value can differ from the
rational floor by one unit in borderline cases, but both renderings are
non-decreasing in `i` and bounded by 90, which is all the claims use. -/
def pageProgress (n i : Nat) : Nat := 20 + i * 70 / n

/-- `f"Generando página {i}/{total_pages}"`. -/
def pageStepMsg (i n : Nat) : PStr :=
  "Generando página ".toList ++ natRepr i ++ "/".toList ++ natRepr n

/-- `BookOrchestrator.generate_complete_book` (book_orchestrator.py:180-323).
The expanded story is a parameter: `extend_full_story` catches its own
exceptions and falls back, so it never raises into this function.  The
character/scene sheet stages and each page run through 3-attempt retry loops;
failed pages are collected and, if any exist, the raised exception carries
every failed page number and the handler records it. -/
def generate_complete_book (book : BookState) (fullStory : FullStory)
    (charOps sceneOps : Nat → Option PStr)
    (pageOps : Nat → Nat → Option PStr)
    (pdfGen : List (Option PStr) → Option PStr) : BookState :=
  let b0 := { book with status := Status.generating
                        current_step := "Iniciando generación completa".toList
                        progress_percentage := 0 }
  let b1 := { b0 with current_step := "Extendiendo historia completa".toList
                      progress_percentage := 5 }
  let b2 := { b1 with current_step := "Creando personajes con portada".toList
                      progress_percentage := 10 }
  match retryResult charOps 3 with
  | none => setError b2 "No se pudo generar character sheet después de 3 intentos".toList
  | some _ =>
  let b3 := { b2 with current_step := "Creando escenarios".toList
                      progress_percentage := 20 }
  match retryResult sceneOps 3 with
  | none => setError b3 "No se pudo generar scene sheet después de 3 intentos".toList
  | some _ =>
  let n := fullStory.paginas.length
  let pageResults := (List.range n).map (fun i => retryResult (pageOps (i + 1)) 3)
  let failed := (List.range n).filterMap
    (fun i => if retryResult (pageOps (i + 1)) 3 = none then some (i + 1) else none)
  let b4 := if n = 0 then b3
    else { b3 with current_step := pageStepMsg n n
                   progress_percentage := pageProgress n n }
  if failed = [] then
    let b5 := { b4 with current_step := "Creando PDF final".toList
                        progress_percentage := 95 }
    match pdfGen pageResults with
    | none => setError b5 "No se pudo crear el PDF".toList
    | some pdf =>
      { b5 with status := Status.completed
                pdf_path := some pdf
                current_step := "Libro completado".toList
                progress_percentage := 100 }
  else setError b4 (pageFailMsg failed)

/-- `BookOrchestrator.regenerate_single_page` (book_orchestrator.py:325-399).
`storyPages` is `len(story_data['paginas'])`; `sheetsFound` models the
`glob` checks for the sheet files; `pageFiles` models the sorted
`page_*.png` directory listing used to rebuild the filename list.  Every
raised exception is caught and turned into a `False` return without touching
the book row. -/
def regenerate_single_page (book : BookState) (storyPages : Nat)
    (page_number : Int) (sheetsFound : Bool) (pageOps : Nat → Option PStr)
    (pdfGen : List (Option PStr) → Option PStr) (pageFiles : List PStr) :
    BookState × Bool :=
  if book.status ≠ Status.completed then (book, false)
  else if page_number < 1 ∨ page_number > (storyPages : Int) then (book, false)
  else if sheetsFound = false then (book, false)
  else
    match retryResult pageOps 3 with
    | none => (book, false)
    | some newPage =>
      let filenames := (List.range storyPages).map (fun (idx : Nat) =>
        if ((idx : Int) + 1) = page_number then some newPage
        else pageFiles[idx]?)
      match pdfGen filenames with
      | none => (book, false)
      | some pdf => ({ book with pdf_path := some pdf }, true)

/-- `f"Error regenerando portada: {...}"` wrapper used by both cover
regeneration handlers. -/
def regenErr (detail : PStr) : PStr := "Error regenerando portada: ".toList ++ detail

/-- `BookOrchestrator.regenerate_preview_cover` (book_orchestrator.py:111-178).
`hasStory` models `book.book_data_json` being non-empty.  The third component
of the result counts the calls made to the external image-generation service
(the Ideogram cover generator).  Note: this implementation performs no check
on the reference sheets — it generates the cover from the original photo. -/
def regenerate_preview_cover_orch (book : BookState) (hasStory : Bool)
    (coverOps : Nat → Option PStr) : BookState × Bool × Nat :=
  if hasStory = false then
    ({ book with status := Status.preview_error
                 generation_error := some (regenErr "No hay historia para regenerar".toList) },
     false, 0)
  else
    let b := { book with status := Status.generating_cover
                         current_step := "Regenerando portada".toList
                         progress_percentage := 50 }
    let t := retryGo coverOps 1 3
    match t.1 with
    | some f =>
      ({ b with cover_preview_path := some f
                status := Status.preview_ready
                current_step := "Preview listo".toList
                progress_percentage := 100 }, true, t.2.1)
    | none =>
      ({ b with status := Status.preview_error
                generation_error :=
                  some (regenErr "No se pudo regenerar portada después de 3 intentos".toList) },
       false, t.2.1)

/-- `BookGenerationService.regenerate_preview_cover` (services.py:688-761).
Identical to the orchestrator variant except that it checks that both
reference sheets exist on disk (`sheetsExist`) before mutating any state or
calling the image service, raising `"Sheets no encontrados"` otherwise. -/
def regenerate_preview_cover_service (book : BookState) (hasStory : Bool)
    (sheetsExist : Bool) (coverOps : Nat → Option PStr) : BookState × Bool × Nat :=
  if hasStory = false then
    ({ book with status := Status.preview_error
                 generation_error := some (regenErr "No hay historia para regenerar".toList) },
     false, 0)
  else if sheetsExist = false then
    ({ book with status := Status.preview_error
                 generation_error :=
                   some (regenErr "Sheets no encontrados, no se puede regenerar".toList) },
     false, 0)
  else
    let b := { book with status := Status.generating_cover
                         current_step := "Regenerando portada".toList
                         progress_percentage := 50 }
    let t := retryGo coverOps 1 3
    match t.1 with
    | some f =>
      ({ b with cover_preview_path := some f
                status := Status.preview_ready
                current_step := "Preview listo".toList
                progress_percentage := 100 }, true, t.2.1)
    | none =>
      ({ b with status := Status.preview_error
                generation_error :=
                  some (regenErr "No se pudo regenerar portada después de 3 intentos".toList) },
       false, t.2.1)

/-- The sequence of `progress_percentage` values a successful Preview
pipeline run writes (book_orchestrator.py:42-96: updates at 20, 60, 100; the
run never writes 0). -/
def previewProgressWrites : List Nat := [20, 60, 100]

/-- The sequence of `progress_percentage` values a successful Completion
pipeline run over `n` pages writes (book_orchestrator.py:180-309): 0 at the
start, 5/10/20 at the stage boundaries, one value per page, then 95 and 100.
A failing run stops early, so it writes a prefix of this sequence. -/
def completionProgressWrites (n : Nat) : List Nat :=
  [0, 5, 10, 20] ++ (List.range n).map (fun i => pageProgress n (i + 1)) ++ [95, 100]

/-!  Theorems.  -/

/-- Full characterisation of the retry loop, generalized over the starting
attempt number: bounded call count, early return on the first success with
one sleep short of the call count, and failure exactly when every allowed
attempt fails. -/
theorem retryGo_spec {α : Type} (op : Nat → Option α) : ∀ (r a : Nat),
    (retryGo op a r).2.1 ≤ r ∧
    (∀ x, (retryGo op a r).1 = some x →
      ∃ k, a ≤ k ∧ k < a + r ∧ op k = some x ∧
        (∀ j, a ≤ j → j < k → op j = none) ∧
        (retryGo op a r).2.1 = k + 1 - a ∧ (retryGo op a r).2.2 = 2 * (k - a)) ∧
    ((retryGo op a r).1 = none →
      (retryGo op a r).2.1 = r ∧ (∀ j, a ≤ j → j < a + r → op j = none) ∧
        (retryGo op a r).2.2 = 2 * (r - 1)) := by
  intro r
  induction r with
  | zero =>
    intro a
    refine ⟨by simp [retryGo], ?_, ?_⟩
    · intro x hx; simp [retryGo] at hx
    · intro _
      refine ⟨by simp [retryGo], ?_, by simp [retryGo]⟩
      intro j hj hj'; omega
  | succ r ih =>
    intro a
    cases hop : op a with
    | some x =>
      refine ⟨by simp [retryGo, hop], ?_, ?_⟩
      · intro y hy
        simp [retryGo, hop] at hy
        refine ⟨a, Nat.le_refl a, by omega, ?_, ?_, by simp [retryGo, hop], by simp [retryGo, hop]⟩
        · rw [hop, hy]
        · intro j h1 h2; omega
      · intro h; simp [retryGo, hop] at h
    | none =>
      by_cases hr : r = 0
      · subst hr
        refine ⟨by simp [retryGo, hop], ?_, ?_⟩
        · intro y hy; simp [retryGo, hop] at hy
        · intro _
          refine ⟨by simp [retryGo, hop], ?_, by simp [retryGo, hop]⟩
          intro j hj hj'
          have hja : j = a := by omega
          rw [hja]; exact hop
      · have hgo : retryGo op a (r + 1) =
            ((retryGo op (a + 1) r).1, (retryGo op (a + 1) r).2.1 + 1,
             (retryGo op (a + 1) r).2.2 + 2) := by
          simp [retryGo, hop, hr]
        obtain ⟨ihle, ihsome, ihnone⟩ := ih (a + 1)
        refine ⟨?_, ?_, ?_⟩
        · rw [hgo]; exact Nat.succ_le_succ ihle
        · intro y hy
          rw [hgo] at hy
          obtain ⟨k, hk1, hk2, hk3, hk4, hk5, hk6⟩ := ihsome y hy
          refine ⟨k, by omega, by omega, hk3, ?_, ?_, ?_⟩
          · intro j hj1 hj2
            rcases Nat.eq_or_lt_of_le hj1 with h | h
            · rw [← h]; exact hop
            · exact hk4 j (by omega) hj2
          · rw [hgo]; dsimp only; omega
          · rw [hgo]; dsimp only; omega
        · intro hy
          rw [hgo] at hy
          obtain ⟨h1, h2, h3⟩ := ihnone hy
          refine ⟨?_, ?_, ?_⟩
          · rw [hgo]; dsimp only; omega
          · intro j hj1 hj2
            rcases Nat.eq_or_lt_of_le hj1 with h | h
            · rw [← h]; exact hop
            · exact h2 j (by omega) (by omega)
          · rw [hgo]; dsimp only; omega

/-- Claim C4: the retry wrapper invokes the wrapped operation at most
`max_retries` times; on the first successful attempt `k` it returns the
artifact immediately, having made exactly `k` invocations and slept a fixed
2 units between consecutive attempts; it returns the failure signal (`none`)
only when all `max_retries` attempts have failed, having made exactly
`max_retries` invocations. -/
theorem bounded_retry {α : Type} (op : Nat → Option α) (m : Nat) :
    (generate_page_image_with_retry op m).2.1 ≤ m ∧
    (∀ x, (generate_page_image_with_retry op m).1 = some x →
      ∃ k, 1 ≤ k ∧ k ≤ m ∧ op k = some x ∧
        (∀ j, 1 ≤ j → j < k → op j = none) ∧
        (generate_page_image_with_retry op m).2.1 = k ∧
        (generate_page_image_with_retry op m).2.2 = 2 * (k - 1)) ∧
    ((generate_page_image_with_retry op m).1 = none →
      (generate_page_image_with_retry op m).2.1 = m ∧
      (∀ j, 1 ≤ j → j ≤ m → op j = none) ∧
      (generate_page_image_with_retry op m).2.2 = 2 * (m - 1)) := by
  simp only [generate_page_image_with_retry]
  obtain ⟨h1, h2, h3⟩ := retryGo_spec op m 1
  refine ⟨h1, ?_, ?_⟩
  · intro x hx
    obtain ⟨k, hk1, hk2, hk3, hk4, hk5, hk6⟩ := h2 x hx
    exact ⟨k, hk1, by omega, hk3, hk4, by omega, by omega⟩
  · intro hx
    obtain ⟨g1, g2, g3⟩ := h3 hx
    exact ⟨g1, fun j hj1 hj2 => g2 j hj1 (by omega), g3⟩

/-- A concrete wrapped operation: fails on attempt 1, succeeds on attempt 2. -/
def retryWitnessOp : Nat → Option Nat := fun j => if j = 2 then some 7 else none

/-- Witness for `bounded_retry` at a concrete operation and bound. -/
theorem bounded_retry_w :
    ∃ k, 1 ≤ k ∧ k ≤ 3 ∧ retryWitnessOp k = some 7 ∧
      (∀ j, 1 ≤ j → j < k → retryWitnessOp j = none) ∧
      (generate_page_image_with_retry retryWitnessOp 3).2.1 = k ∧
      (generate_page_image_with_retry retryWitnessOp 3).2.2 = 2 * (k - 1) :=
  (bounded_retry retryWitnessOp 3).2.1 7 (by decide)

/-- The padding loop appends only synthetic pages and stops exactly at the
requested count. -/
theorem padPages_spec (m : MinimalStory) (n : Nat) : ∀ (k : Nat) (pages : List Page),
    n - pages.length = k → pages.length ≤ n →
    ∃ extra, padPages m n pages = pages ++ extra ∧
      (padPages m n pages).length = n ∧
      ∀ p ∈ extra, p.personajes_ids = [1] ∧ p.objetos_ids = [] ∧ p.escenario_id = 1 := by
  intro k
  induction k with
  | zero =>
    intro pages hk hle
    have hnot : ¬ pages.length < n := by omega
    rw [padPages, dif_neg hnot]
    exact ⟨[], by simp, by omega, by simp⟩
  | succ k' ih =>
    intro pages hk hle
    have hlt : pages.length < n := by omega
    rw [padPages, dif_pos hlt]
    obtain ⟨extra, he1, he2, he3⟩ :=
      ih (pages ++ [syntheticPage m (pages.length + 1)]) (by simp; omega) (by simp; omega)
    refine ⟨syntheticPage m (pages.length + 1) :: extra, ?_, he2, ?_⟩
    · rw [he1]; simp
    · intro p hp
      rcases List.mem_cons.mp hp with h | h
      · rw [h]; exact ⟨rfl, rfl, rfl⟩
      · exact he3 p h

/-- Claim C3: when the generation service returns `M ≠ N` pages, the
post-processed story has exactly `N` pages — the first `N` when `M > N`, and
the original pages followed by synthetic pages (each referencing character
id 1 and scene id 1) when `M < N`. -/
theorem page_count_invariant (raw : RawFullData) (minimal : MinimalStory) (n : Nat)
    (h : raw.paginas.length ≠ n) :
    (parse_full_response raw minimal n).paginas.length = n ∧
    (n < raw.paginas.length →
      (parse_full_response raw minimal n).paginas = raw.paginas.take n) ∧
    (raw.paginas.length < n →
      ∃ extra, (parse_full_response raw minimal n).paginas = raw.paginas ++ extra ∧
        ∀ p ∈ extra, p.personajes_ids = [1] ∧ p.objetos_ids = [] ∧ p.escenario_id = 1) := by
  unfold parse_full_response
  dsimp only
  rw [if_neg h]
  by_cases hlt : n < raw.paginas.length
  · rw [if_pos hlt]
    refine ⟨?_, fun _ => rfl, fun hcon => absurd hcon (by omega)⟩
    simp [List.length_take]
    omega
  · rw [if_neg hlt]
    have hle : raw.paginas.length ≤ n := by omega
    obtain ⟨extra, he1, he2, he3⟩ :=
      padPages_spec minimal n (n - raw.paginas.length) raw.paginas rfl hle
    exact ⟨he2, fun hc => absurd hc hlt, fun _ => ⟨extra, he1, he3⟩⟩

/-- Concrete inputs for the C3 witness: a one-page response padded to 3. -/
def w3min : MinimalStory :=
  { protagonista_nombre := [], protagonista_descripcion := [], mundo_descripcion := [] }

def w3raw : RawFullData :=
  { personajes_principales := some []
    objetos_importantes := none
    escenarios := some []
    paginas := [{ numero := 1, texto := [], escena_detallada := [],
                  personajes_ids := [2], objetos_ids := [], escenario_id := 3 }] }

/-- Witness for `page_count_invariant`: one returned page, three requested. -/
theorem page_count_invariant_w :
    (parse_full_response w3raw w3min 3).paginas.length = 3 ∧
    ∃ extra, (parse_full_response w3raw w3min 3).paginas = w3raw.paginas ++ extra ∧
      ∀ p ∈ extra, p.personajes_ids = [1] ∧ p.objetos_ids = [] ∧ p.escenario_id = 1 :=
  ⟨(page_count_invariant w3raw w3min 3 (by decide)).1,
   (page_count_invariant w3raw w3min 3 (by decide)).2.2 (by decide)⟩

/-- After `renumberGo i`, the entry at 0-based position `k` carries id
`i + k`. -/
theorem renumberGo_spec : ∀ (l : List Entry) (i : Int) (k : Nat)
    (h : k < (renumberGo i l).length),
    ((renumberGo i l).get ⟨k, h⟩).id = i + k := by
  intro l
  induction l with
  | nil => intro i k h; simp [renumberGo] at h
  | cons e es ih =>
    intro i k h
    cases k with
    | zero => simp [renumberGo]
    | succ k' =>
      have h' : k' < (renumberGo (i + 1) es).length := by
        simp [renumberGo] at h
        omega
      have hg : ((renumberGo i (e :: es)).get ⟨k' + 1, h⟩) =
          (renumberGo (i + 1) es).get ⟨k', h'⟩ := by
        simp [renumberGo]
      rw [hg, ih]
      push_cast
      ring

/-- A list whose ids are exactly the 1-based positions 1..k. -/
def entriesRenumbered (l : List Entry) : Prop :=
  ∀ (k : Nat) (h : k < l.length), (l.get ⟨k, h⟩).id = k + 1

/-- `renumber` always produces canonically numbered lists. -/
theorem renumber_spec (l : List Entry) : entriesRenumbered (renumber l) := by
  intro k h
  unfold renumber at h ⊢
  rw [renumberGo_spec]
  omega

/-- Concrete inputs for the C2 counterexample: the response's only page
references character id 2, but the (re-numbered) character list only
contains id 1. -/
def c2min : MinimalStory :=
  { protagonista_nombre := [], protagonista_descripcion := [], mundo_descripcion := [] }

def c2raw : RawFullData :=
  { personajes_principales := some [{ id := 7, nombre := [], descripcion := [] }]
    objetos_importantes := some []
    escenarios := some [{ id := 1, nombre := [], descripcion := [] }]
    paginas := [{ numero := 1, texto := [], escena_detallada := [],
                  personajes_ids := [2], objetos_ids := [], escenario_id := 1 }] }

/-- Claim C2 is false as stated: post-processing re-numbers the three lists
but copies each page's id references verbatim, so a page can reference a
character id that exists in no list. -/
theorem referential_integrity_cex :
    ¬ refIntegrity (parse_full_response c2raw c2min 1) := by decide

/-- Claim C2 (amended): the character/object/scene lists are re-numbered
1..k by the post-processing (not taken verbatim from the generation
service), but the ids referenced by the response's pages are copied
verbatim and never validated against those lists (when the page count
matches, the pages pass through unchanged). -/
theorem renumbering_amended (raw : RawFullData) (minimal : MinimalStory) (n : Nat) :
    entriesRenumbered (parse_full_response raw minimal n).personajes_principales ∧
    entriesRenumbered (parse_full_response raw minimal n).objetos_importantes ∧
    entriesRenumbered (parse_full_response raw minimal n).escenarios ∧
    (raw.paginas.length = n → (parse_full_response raw minimal n).paginas = raw.paginas) := by
  refine ⟨?_, ?_, ?_, ?_⟩
  · exact renumber_spec _
  · exact renumber_spec _
  · exact renumber_spec _
  · intro h
    simp only [parse_full_response]
    rw [if_pos h]

/-- Witness for `renumbering_amended` at a concrete response. -/
theorem renumbering_amended_w :
    (parse_full_response c2raw c2min 1).personajes_principales.get
      ⟨0, by decide⟩ = { id := 1, nombre := [], descripcion := [] } ∧
    (parse_full_response c2raw c2min 1).paginas = c2raw.paginas := by
  constructor
  · have h1 := (renumbering_amended c2raw c2min 1).1 0 (by decide)
    revert h1
    decide
  · exact (renumbering_amended c2raw c2min 1).2.2.2 (by decide)

/-- The per-page progress value is non-decreasing in the page index. -/
theorem pageProgress_mono (n : Nat) : ∀ i j, i ≤ j → pageProgress n i ≤ pageProgress n j := by
  intro i j h
  unfold pageProgress
  have h1 : i * 70 ≤ j * 70 := Nat.mul_le_mul_right 70 h
  have h2 : i * 70 / n ≤ j * 70 / n := Nat.div_le_div_right h1
  omega

/-- The per-page progress value never exceeds 90. -/
theorem pageProgress_le (n i : Nat) (h : i ≤ n) : pageProgress n i ≤ 90 := by
  unfold pageProgress
  rcases Nat.eq_zero_or_pos n with hn | hn
  · subst hn
    have hi : i = 0 := by omega
    subst hi
    simp
  · have h1 : i * 70 ≤ n * 70 := Nat.mul_le_mul_right 70 h
    have h2 : i * 70 / n ≤ n * 70 / n := Nat.div_le_div_right h1
    have h3 : n * 70 / n = 70 := Nat.mul_div_cancel_left 70 hn
    omega

/-- Claim C9 is false as stated: the Preview pipeline run never resets
`progress_percentage` to 0 — its first write is 20, and 0 is never among its
writes. -/
theorem progress_reset_cex :
    previewProgressWrites.head? = some 20 ∧ ¬ (0 ∈ previewProgressWrites) := by
  decide

/-- Claim C9 (amended): within each pipeline run the progress writes stay in
0–100 and are monotonically non-decreasing; the Completion run writes 0 first
(resetting the progress), but the Preview run does not reset to 0 — its first
write is 20. -/
theorem progress_discipline_amended (n : Nat) :
    List.Pairwise (· ≤ ·) (completionProgressWrites n) ∧
    (∀ x ∈ completionProgressWrites n, x ≤ 100) ∧
    (completionProgressWrites n).head? = some 0 ∧
    List.Pairwise (· ≤ ·) previewProgressWrites ∧
    (∀ x ∈ previewProgressWrites, x ≤ 100) := by
  have hmem : ∀ y ∈ (List.range n).map (fun i => pageProgress n (i + 1)),
      20 ≤ y ∧ y ≤ 90 := by
    intro y hy
    obtain ⟨i, hi, rfl⟩ := List.mem_map.mp hy
    have hin : i < n := List.mem_range.mp hi
    refine ⟨?_, pageProgress_le n (i + 1) (by omega)⟩
    exact Nat.le_add_right 20 _
  refine ⟨?_, ?_, ?_, by decide, by decide⟩
  · unfold completionProgressWrites
    rw [List.pairwise_append]
    refine ⟨?_, by decide, ?_⟩
    · rw [List.pairwise_append]
      refine ⟨by decide, ?_, ?_⟩
      · rw [List.pairwise_map]
        refine List.Pairwise.imp ?_ (List.pairwise_lt_range n)
        intro a b hab
        exact pageProgress_mono n (a + 1) (b + 1) (by omega)
      · intro x hx y hy
        have hy20 := (hmem y hy).1
        fin_cases hx <;> omega
    · intro x hx y hy
      rcases List.mem_append.mp hx with h | h
      · fin_cases h <;> fin_cases hy <;> omega
      · have := (hmem x h).2
        fin_cases hy <;> omega
  · intro x hx
    unfold completionProgressWrites at hx
    rcases List.mem_append.mp hx with h | h
    · rcases List.mem_append.mp h with h' | h'
      · fin_cases h' <;> omega
      · have := (hmem x h').2
        omega
    · fin_cases h <;> omega
  · rfl

/-- Witness for `progress_discipline_amended` at a two-page run. -/
theorem progress_discipline_amended_w :
    (completionProgressWrites 2).head? = some 0 ∧ (90 : Nat) ≤ 100 :=
  ⟨(progress_discipline_amended 2).2.2.1,
   (progress_discipline_amended 2).2.1 90 (by decide)⟩

/-- Claim C5: the selected size is always one of the candidates
[18, 16, 14, 12]; whenever some candidate satisfies both the line-count and
height constraints, the selected size satisfies them and is the largest such
candidate; when none does, the selection falls back to 12. -/
theorem font_size_selection (sw : Nat → PStr → Nat) (text : PStr)
    (maxW maxH maxLines : Nat) :
    get_optimal_font_size sw text maxW maxH maxLines ∈ fontCandidates ∧
    (∀ c ∈ fontCandidates, fontFits sw text maxW maxH maxLines c = true →
      fontFits sw text maxW maxH maxLines
        (get_optimal_font_size sw text maxW maxH maxLines) = true ∧
      c ≤ get_optimal_font_size sw text maxW maxH maxLines) ∧
    ((∀ c ∈ fontCandidates, fontFits sw text maxW maxH maxLines c = false) →
      get_optimal_font_size sw text maxW maxH maxLines = 12) := by
  cases h18 : fontFits sw text maxW maxH maxLines 18 <;>
  cases h16 : fontFits sw text maxW maxH maxLines 16 <;>
  cases h14 : fontFits sw text maxW maxH maxLines 14 <;>
  cases h12 : fontFits sw text maxW maxH maxLines 12 <;>
  simp [get_optimal_font_size, fontLoop, fontCandidates, h18, h16, h14, h12]

/-- A concrete width function for the C5 witness: width is the character
count, independent of font size. -/
def w5sw : Nat → PStr → Nat := fun _ l => l.length

/-- Witness for `font_size_selection`: with a short text everything fits at
size 18, and the algorithm selects it. -/
theorem font_size_selection_w :
    fontFits w5sw "ab cd".toList 100 30 7
      (get_optimal_font_size w5sw "ab cd".toList 100 30 7) = true ∧
    18 ≤ get_optimal_font_size w5sw "ab cd".toList 100 30 7 :=
  (font_size_selection w5sw "ab cd".toList 100 30 7).2.1 18 (by decide) (by decide)

/-- Claim C8: single-page regeneration of a completed book never changes the
status, returns the book unchanged on any failure (invalid page number,
missing sheets, exhausted image retries, or failed PDF re-assembly), and on
success changes nothing but the stored PDF path. -/
theorem completed_book_frame (book : BookState) (storyPages : Nat)
    (page_number : Int) (sheetsFound : Bool) (pageOps : Nat → Option PStr)
    (pdfGen : List (Option PStr) → Option PStr) (pageFiles : List PStr)
    (h : book.status = Status.completed) :
    (regenerate_single_page book storyPages page_number sheetsFound pageOps
        pdfGen pageFiles).1.status = Status.completed ∧
    ((regenerate_single_page book storyPages page_number sheetsFound pageOps
        pdfGen pageFiles).2 = false →
      (regenerate_single_page book storyPages page_number sheetsFound pageOps
        pdfGen pageFiles).1 = book) ∧
    ((regenerate_single_page book storyPages page_number sheetsFound pageOps
        pdfGen pageFiles).2 = true →
      ∃ f, (regenerate_single_page book storyPages page_number sheetsFound pageOps
        pdfGen pageFiles).1 = { book with pdf_path := some f }) := by
  unfold regenerate_single_page
  rw [if_neg (by simp [h])]
  by_cases hpn : page_number < 1 ∨ page_number > (storyPages : Int)
  · rw [if_pos hpn]
    exact ⟨h, fun _ => rfl, fun hc => absurd hc (by simp)⟩
  · rw [if_neg hpn]
    cases hsf : sheetsFound with
    | false =>
      simp only [if_pos rfl]
      exact ⟨h, fun _ => rfl, fun hc => absurd hc (by simp)⟩
    | true =>
      simp only [if_neg (by simp : ¬ (true = false))]
      cases hres : retryResult pageOps 3 with
      | none =>
        exact ⟨h, fun _ => rfl, fun hc => absurd hc (by simp)⟩
      | some newPage =>
        dsimp only
        cases hpdf : pdfGen ((List.range storyPages).map (fun (idx : Nat) =>
            if ((idx : Int) + 1) = page_number then some newPage
            else pageFiles[idx]?)) with
        | none =>
          exact ⟨h, fun _ => rfl, fun hc => absurd hc (by simp)⟩
        | some pdf =>
          exact ⟨h, fun hc => absurd hc (by simp), fun _ => ⟨pdf, rfl⟩⟩

/-- A concrete completed book for the C8 witness. -/
def w8book : BookState :=
  { status := Status.completed, current_step := [], progress_percentage := 100,
    cover_preview_path := none, pdf_path := some ['p'], generation_error := none }

/-- Witness for `completed_book_frame`: an out-of-range page number leaves
the completed book untouched. -/
theorem completed_book_frame_w :
    (regenerate_single_page w8book 12 99 true (fun _ => none) (fun _ => none) []).1 =
      w8book :=
  (completed_book_frame w8book 12 99 true (fun _ => none) (fun _ => none) [] rfl).2.1
    (by decide)

/-- A concrete preview-ready book for the C6 counterexample. -/
def w6book : BookState :=
  { status := Status.preview_ready, current_step := [], progress_percentage := 100,
    cover_preview_path := some ['o'], pdf_path := none, generation_error := none }

/-- Claim C6 is false as stated: the `BookOrchestrator` implementation of
cover regeneration never consults the reference sheets (it regenerates from
the original photo), so for a book whose sheets are absent on disk it still
makes an external image-generation call — here exactly one — and succeeds
instead of failing. -/
theorem cover_regen_no_sheet_check_cex :
    (regenerate_preview_cover_orch w6book true (fun _ => some ['c'])).2.2 = 1 ∧
    (regenerate_preview_cover_orch w6book true (fun _ => some ['c'])).2.1 = true := by
  decide

/-- Claim C6 (amended): in the `BookGenerationService` implementation, cover
regeneration for a book whose reference sheets are absent on disk fails
immediately — zero external image-generation calls, a `False` return, and an
unchanged cover; the `BookOrchestrator` implementation performs no sheet
check at all. -/
theorem cover_regen_sheet_precondition_amended (book : BookState) (hasStory : Bool)
    (coverOps : Nat → Option PStr) :
    (regenerate_preview_cover_service book hasStory false coverOps).2.2 = 0 ∧
    (regenerate_preview_cover_service book hasStory false coverOps).2.1 = false ∧
    (regenerate_preview_cover_service book hasStory false coverOps).1.cover_preview_path =
      book.cover_preview_path := by
  cases hasStory <;> simp [regenerate_preview_cover_service]

/-- An infix of a list is an infix of any left-extension of it. -/
theorem infix_of_append_left (x s l : PStr) (h : x <:+: l) : x <:+: s ++ l := by
  obtain ⟨u, v, huv⟩ := h
  refine ⟨s ++ u, v, ?_⟩
  rw [← huv]
  simp [List.append_assoc]

/-- Every element of the joined list is an infix of the `', '.join`. -/
theorem mem_commaJoin (x : PStr) : ∀ l : List PStr, x ∈ l → x <:+: commaJoin l := by
  intro l
  induction l with
  | nil => intro h; simp at h
  | cons a as ih =>
    intro h
    cases as with
    | nil =>
      have hx : x = a := by simpa using h
      rw [hx]
      exact ⟨[], [], by simp [commaJoin]⟩
    | cons b bs =>
      have hcj : commaJoin (a :: b :: bs) = a ++ ", ".toList ++ commaJoin (b :: bs) := rfl
      rcases List.mem_cons.mp h with hx | h'
      · rw [hx, hcj, List.append_assoc]
        exact ⟨[], ", ".toList ++ commaJoin (b :: bs), by simp⟩
      · rw [hcj]
        exact infix_of_append_left x (a ++ ", ".toList) _ (ih h')

/-- Membership in the failed-page list collected by the completion loop. -/
theorem mem_failedPages (pageOps : Nat → Nat → Option PStr) (n : Nat) (i : Nat) :
    i ∈ (List.range n).filterMap
        (fun j => if retryResult (pageOps (j + 1)) 3 = none then some (j + 1) else none) ↔
      1 ≤ i ∧ i ≤ n ∧ retryResult (pageOps i) 3 = none := by
  rw [List.mem_filterMap]
  constructor
  · rintro ⟨a, ha, hfa⟩
    have han : a < n := List.mem_range.mp ha
    by_cases hr : retryResult (pageOps (a + 1)) 3 = none
    · rw [if_pos hr] at hfa
      have hai : a + 1 = i := by injection hfa
      refine ⟨by omega, by omega, ?_⟩
      rw [← hai]
      exact hr
    · rw [if_neg hr] at hfa
      exact absurd hfa (by simp)
  · rintro ⟨h1, h2, h3⟩
    refine ⟨i - 1, List.mem_range.mpr (by omega), ?_⟩
    have hi : i - 1 + 1 = i := by omega
    rw [hi, if_pos h3]

/-- Claim C1: when both reference sheets are produced but at least one page
exhausts all of its retries, the completion pipeline collects every failed
page, aborts before document assembly, ends with status `error` (never
`completed`), leaves the stored document path unchanged, and records every
failed page number (in decimal) inside the error message. -/
theorem completion_all_or_nothing (book : BookState) (fullStory : FullStory)
    (charOps sceneOps : Nat → Option PStr) (pageOps : Nat → Nat → Option PStr)
    (pdfGen : List (Option PStr) → Option PStr)
    (cs : PStr) (hchar : retryResult charOps 3 = some cs)
    (ss : PStr) (hscene : retryResult sceneOps 3 = some ss)
    (i₀ : Nat) (hi₀ : 1 ≤ i₀ ∧ i₀ ≤ fullStory.paginas.length ∧
      retryResult (pageOps i₀) 3 = none) :
    (generate_complete_book book fullStory charOps sceneOps pageOps pdfGen).status =
      Status.error ∧
    (generate_complete_book book fullStory charOps sceneOps pageOps pdfGen).status ≠
      Status.completed ∧
    (generate_complete_book book fullStory charOps sceneOps pageOps pdfGen).pdf_path =
      book.pdf_path ∧
    (∀ i, 1 ≤ i → i ≤ fullStory.paginas.length → retryResult (pageOps i) 3 = none →
      ∃ msg,
        (generate_complete_book book fullStory charOps sceneOps pageOps
          pdfGen).generation_error = some msg ∧
        natRepr i <:+: msg) := by
  have hne : (List.range fullStory.paginas.length).filterMap
      (fun j => if retryResult (pageOps (j + 1)) 3 = none then some (j + 1) else none) ≠
      [] := by
    intro hemp
    have : i₀ ∈ (List.range fullStory.paginas.length).filterMap
        (fun j => if retryResult (pageOps (j + 1)) 3 = none then some (j + 1) else none) :=
      (mem_failedPages pageOps fullStory.paginas.length i₀).mpr hi₀
    rw [hemp] at this
    simp at this
  simp only [generate_complete_book, hchar, hscene]
  rw [if_neg hne]
  refine ⟨rfl, by simp [setError], ?_, ?_⟩
  · show (if fullStory.paginas.length = 0 then _ else _ : BookState).pdf_path = book.pdf_path
    rw [apply_ite BookState.pdf_path]
    simp
  · intro i hi1 hi2 hi3
    refine ⟨_, rfl, ?_⟩
    unfold pageFailMsg
    refine infix_of_append_left _ _ _ (mem_commaJoin _ _ ?_)
    exact List.mem_map_of_mem natRepr
      ((mem_failedPages pageOps fullStory.paginas.length i).mpr ⟨hi1, hi2, hi3⟩)

/-- Concrete inputs for the C1 witness: two pages, page 2 fails every
attempt, everything else succeeds. -/
def w1book : BookState :=
  { status := Status.paid, current_step := [], progress_percentage := 0,
    cover_preview_path := some ['o'], pdf_path := none, generation_error := none }

def w1page : Page :=
  { numero := 1, texto := [], escena_detallada := [], personajes_ids := [1],
    objetos_ids := [], escenario_id := 1 }

def w1story : FullStory :=
  { personajes_principales := [], objetos_importantes := [], escenarios := [],
    paginas := [w1page, w1page] }

def w1charOps : Nat → Option PStr := fun _ => some ['c']

def w1sceneOps : Nat → Option PStr := fun _ => some ['s']

def w1pageOps : Nat → Nat → Option PStr := fun i _ => if i = 1 then some ['a'] else none

def w1pdfGen : List (Option PStr) → Option PStr := fun _ => some ['d']

/-- Witness for `completion_all_or_nothing` at the concrete failing run. -/
theorem completion_all_or_nothing_w :
    (generate_complete_book w1book w1story w1charOps w1sceneOps w1pageOps
        w1pdfGen).status = Status.error ∧
    ∃ msg,
      (generate_complete_book w1book w1story w1charOps w1sceneOps w1pageOps
        w1pdfGen).generation_error = some msg ∧
      natRepr 2 <:+: msg :=
  ⟨(completion_all_or_nothing w1book w1story w1charOps w1sceneOps w1pageOps w1pdfGen
      ['c'] (by decide) ['s'] (by decide) 2 (by decide)).1,
   (completion_all_or_nothing w1book w1story w1charOps w1sceneOps w1pageOps w1pdfGen
      ['c'] (by decide) ['s'] (by decide) 2 (by decide)).2.2.2 2 (by decide) (by decide)
      (by decide)⟩

/-- Words produced by the splitter are non-empty and contain no whitespace. -/
theorem splitWordsGo_sound : ∀ (s acc : PStr),
    (∀ c ∈ acc, c.isWhitespace = false) →
    ∀ w ∈ splitWordsGo s acc, w ≠ [] ∧ ∀ c ∈ w, c.isWhitespace = false := by
  intro s
  induction s with
  | nil =>
    intro acc hacc w hw
    by_cases h : acc = []
    · rw [h] at hw
      simp [splitWordsGo] at hw
    · simp only [splitWordsGo, if_neg h] at hw
      have hwr : w = acc.reverse := by simpa using hw
      subst hwr
      refine ⟨by simpa using h, ?_⟩
      intro c hc
      exact hacc c (List.mem_reverse.mp hc)
  | cons c cs ih =>
    intro acc hacc w hw
    simp only [splitWordsGo] at hw
    by_cases hc : c.isWhitespace
    · rw [if_pos hc] at hw
      by_cases h : acc = []
      · rw [if_pos h] at hw
        exact ih [] (by simp) w hw
      · rw [if_neg h] at hw
        rcases List.mem_cons.mp hw with hwr | hw'
        · subst hwr
          refine ⟨by simpa using h, ?_⟩
          intro d hd
          exact hacc d (List.mem_reverse.mp hd)
        · exact ih [] (by simp) w hw'
    · rw [if_neg hc] at hw
      refine ih (c :: acc) ?_ w hw
      intro d hd
      rcases List.mem_cons.mp hd with rfl | hd'
      · exact Bool.eq_false_iff.mpr hc
      · exact hacc d hd'

/-- Consuming a whitespace-free word moves it wholesale into the
accumulator. -/
theorem splitWordsGo_append : ∀ (w : PStr), (∀ c ∈ w, c.isWhitespace = false) →
    ∀ (s acc : PStr), splitWordsGo (w ++ s) acc = splitWordsGo s (w.reverse ++ acc) := by
  intro w
  induction w with
  | nil => intro _ s acc; simp
  | cons c cw ih =>
    intro hw s acc
    have hc : c.isWhitespace = false := hw c (by simp)
    simp only [List.cons_append, splitWordsGo, hc]
    rw [if_neg (by simp)]
    show splitWordsGo (cw ++ s) (c :: acc) = splitWordsGo s ((c :: cw).reverse ++ acc)
    rw [ih (fun d hd => hw d (by simp [hd])) s (c :: acc)]
    simp [List.append_assoc]

/-- Splitting is a left inverse of joining for non-empty whitespace-free
words. -/
theorem splitWords_joinLine : ∀ (ws : List PStr),
    (∀ w ∈ ws, w ≠ [] ∧ ∀ c ∈ w, c.isWhitespace = false) →
    splitWords (joinLine ws) = ws := by
  intro ws
  induction ws with
  | nil => intro _; simp [splitWords, joinLine, splitWordsGo]
  | cons w ws ih =>
    intro h
    obtain ⟨hw1, hw2⟩ := h w (by simp)
    cases ws with
    | nil =>
      show splitWords (joinLine [w]) = [w]
      have hj : joinLine [w] = w := rfl
      rw [hj]
      unfold splitWords
      have h1 := splitWordsGo_append w hw2 [] []
      rw [List.append_nil] at h1
      rw [h1]
      simp [splitWordsGo, hw1]
    | cons w2 ws2 =>
      have hj : joinLine (w :: w2 :: ws2) = w ++ ' ' :: joinLine (w2 :: ws2) := rfl
      unfold splitWords
      rw [hj, splitWordsGo_append w hw2, List.append_nil]
      simp only [splitWordsGo]
      rw [if_pos (by decide), if_neg (by simpa using hw1)]
      rw [List.reverse_reverse]
      have := ih (fun x hx => h x (by simp [hx]))
      unfold splitWords at this
      rw [this]

/-- A whitespace-only text splits into no words. -/
theorem splitWords_all_space : ∀ (s : PStr),
    (∀ c ∈ s, c.isWhitespace = true) → splitWords s = [] := by
  intro s
  induction s with
  | nil => intro _; simp [splitWords, splitWordsGo]
  | cons c cs ih =>
    intro h
    unfold splitWords
    simp only [splitWordsGo]
    rw [if_pos (h c (by simp))]
    simp only [if_true]
    exact ih (fun d hd => h d (by simp [hd]))

/-- A chunk of words is good when every multi-word prependage of it passed
the width test: joining any of its first `k ≥ 2` words measures under the
limit.  This is exactly the invariant the greedy loop maintains for its
`current_line`. -/
def goodChunk (sw : PStr → Nat) (maxW : Nat) (c : List PStr) : Prop :=
  ∀ k, 2 ≤ k → k ≤ c.length → sw (joinLine (c.take k)) < maxW

/-- Structure theorem for the greedy wrap loop: the produced lines are the
joins of a partition of the input words into non-empty good chunks. -/
theorem wrapGo_chunks (sw : PStr → Nat) (maxW : Nat) : ∀ (ws cur : List PStr),
    goodChunk sw maxW cur →
    ∃ chunks : List (List PStr),
      wrapGo sw maxW cur ws = chunks.map joinLine ∧
      chunks.flatten = cur ++ ws ∧
      ∀ c ∈ chunks, c ≠ [] ∧ goodChunk sw maxW c := by
  intro ws
  induction ws with
  | nil =>
    intro cur hcur
    by_cases h : cur = []
    · subst h
      exact ⟨[], by simp [wrapGo], by simp, by simp⟩
    · refine ⟨[cur], by simp [wrapGo, h], by simp, ?_⟩
      intro c hc
      have hcc : c = cur := by simpa using hc
      subst hcc
      exact ⟨h, hcur⟩
  | cons w ws ih =>
    intro cur hcur
    by_cases htest : sw (joinLine (cur ++ [w])) < maxW
    · have hgood : goodChunk sw maxW (cur ++ [w]) := by
        intro k hk2 hkle
        simp only [List.length_append, List.length_singleton] at hkle
        rcases Nat.lt_or_ge k (cur.length + 1) with hlt | hge
        · have hkc : k ≤ cur.length := by omega
          rw [List.take_append_of_le_length hkc]
          exact hcur k hk2 hkc
        · have hk : k = cur.length + 1 := by omega
          rw [hk, List.take_of_length_le (by simp)]
          exact htest
      obtain ⟨chunks, h1, h2, h3⟩ := ih (cur ++ [w]) hgood
      refine ⟨chunks, ?_, ?_, h3⟩
      · simp only [wrapGo, if_pos htest]
        exact h1
      · rw [h2]
        simp
    · have hgoodw : goodChunk sw maxW [w] := by
        intro k hk2 hkle
        simp at hkle
        omega
      obtain ⟨chunks, h1, h2, h3⟩ := ih [w] hgoodw
      by_cases hcure : cur = []
      · subst hcure
        refine ⟨chunks, ?_, ?_, h3⟩
        · simp only [wrapGo, if_neg htest, if_pos rfl]
          exact h1
        · rw [h2]
          simp
      · refine ⟨cur :: chunks, ?_, ?_, ?_⟩
        · simp only [wrapGo, if_neg htest, if_neg hcure]
          rw [h1]
          rfl
        · simp [h2]
        · intro c hc
          rcases List.mem_cons.mp hc with rfl | hc'
          · exact ⟨hcure, hcur⟩
          · exact h3 c hc'

/-- Joining a non-empty first word gives a non-empty line. -/
theorem joinLine_ne_nil (w : PStr) (rest : List PStr) (hw : w ≠ []) :
    joinLine (w :: rest) ≠ [] := by
  cases rest with
  | nil => simpa [joinLine] using hw
  | cons b bs => simp [joinLine]

/-- Re-running the greedy loop over a single good chunk keeps it whole. -/
theorem wrapGo_single (sw : PStr → Nat) (maxW : Nat) : ∀ (c cur : List PStr),
    cur ≠ [] → goodChunk sw maxW (cur ++ c) →
    wrapGo sw maxW cur c = [joinLine (cur ++ c)] := by
  intro c
  induction c with
  | nil =>
    intro cur hne _
    simp [wrapGo, hne]
  | cons w cws ih =>
    intro cur hne hgood
    have hlen : 1 ≤ cur.length := by
      cases cur with
      | nil => exact absurd rfl hne
      | cons a as => simp
    have htake : (cur ++ w :: cws).take (cur.length + 1) = cur ++ [w] := by
      have h1 : (cur ++ w :: cws).take (cur.length + 1) = cur ++ (w :: cws).take 1 :=
        List.take_append 1
      rw [h1]
      rfl
    have htest : sw (joinLine (cur ++ [w])) < maxW := by
      have hk := hgood (cur.length + 1) (by omega) (by simp)
      rw [htake] at hk
      exact hk
    simp only [wrapGo, if_pos htest]
    have hrec := ih (cur ++ [w]) (by simp)
      (by rw [List.append_assoc]; simpa using hgood)
    rw [hrec]
    congr 1
    simp

/-- Starting from an empty accumulator, the greedy loop keeps a good chunk
whole (the first word is always accepted into the empty line, tested or
not). -/
theorem wrapGo_nil_start (sw : PStr → Nat) (maxW : Nat) (c : List PStr)
    (hne : c ≠ []) (hgood : goodChunk sw maxW c) :
    wrapGo sw maxW [] c = [joinLine c] := by
  cases c with
  | nil => exact absurd rfl hne
  | cons w cws =>
    cases cws with
    | nil =>
      by_cases htest : sw (joinLine ([] ++ [w])) < maxW
      · simp only [wrapGo, if_pos htest]
        simp [wrapGo]
      · simp only [wrapGo, if_neg htest, if_pos rfl]
        simp [wrapGo]
    | cons w2 cws2 =>
      have hgood' : goodChunk sw maxW ([w] ++ w2 :: cws2) := by simpa using hgood
      by_cases htest : sw (joinLine ([] ++ [w])) < maxW
      · simp only [wrapGo, if_pos htest]
        simpa using wrapGo_single sw maxW (w2 :: cws2) [w] (by simp) hgood'
      · simp only [wrapGo, if_neg htest, if_pos rfl]
        simpa using wrapGo_single sw maxW (w2 :: cws2) [w] (by simp) hgood'

/-- Claim C7: greedy wrapping is idempotent — every line produced by a wrap,
wrapped again at the same width and font metric, comes back as exactly that
single line. -/
theorem wrap_idempotent (sw : PStr → Nat) (maxW : Nat) (text : PStr) :
    ∀ L ∈ wrap_text sw maxW text, wrap_text sw maxW L = [L] := by
  obtain ⟨chunks, h1, h2, h3⟩ := wrapGo_chunks sw maxW (splitWords text) []
    (by intro k hk2 hkle; simp at hkle; omega)
  rw [List.nil_append] at h2
  intro L hL
  have hwt : wrap_text sw maxW text = chunks.map joinLine := h1
  rw [hwt] at hL
  obtain ⟨c, hc, rfl⟩ := List.mem_map.mp hL
  obtain ⟨hcne, hcgood⟩ := h3 c hc
  have hwords : ∀ w ∈ c, w ≠ [] ∧ ∀ ch ∈ w, ch.isWhitespace = false := by
    intro w hw
    refine splitWordsGo_sound text [] (by simp) w ?_
    show w ∈ splitWords text
    rw [← h2]
    exact List.mem_flatten_of_mem hc hw
  show wrap_text sw maxW (joinLine c) = [joinLine c]
  unfold wrap_text
  rw [splitWords_joinLine c hwords]
  exact wrapGo_nil_start sw maxW c hcne hcgood

/-- Concrete inputs for the C7 witness. -/
def w7sw : PStr → Nat := fun l => l.length

/-- Witness for `wrap_idempotent`: with width 6 and character-count metric,
"aa bb cc" wraps to ["aa bb", "cc"]; re-wrapping "aa bb" gives it back. -/
theorem wrap_idempotent_w :
    wrap_text w7sw 6 "aa bb".toList = ["aa bb".toList] :=
  wrap_idempotent w7sw 6 "aa bb cc".toList "aa bb".toList (by decide)

/-- Claim C10: wrapping preserves content — every produced line is
non-empty, the words of the lines concatenated in order are exactly the
whitespace-split words of the input, and an all-whitespace (in particular
empty) input produces no lines. -/
theorem wrap_preserves_content (sw : PStr → Nat) (maxW : Nat) (text : PStr) :
    (∀ L ∈ wrap_text sw maxW text, L ≠ []) ∧
    ((wrap_text sw maxW text).map splitWords).flatten = splitWords text ∧
    ((∀ c ∈ text, c.isWhitespace = true) → wrap_text sw maxW text = []) := by
  obtain ⟨chunks, h1, h2, h3⟩ := wrapGo_chunks sw maxW (splitWords text) []
    (by intro k hk2 hkle; simp at hkle; omega)
  rw [List.nil_append] at h2
  have hwt : wrap_text sw maxW text = chunks.map joinLine := h1
  have hwords : ∀ c ∈ chunks, ∀ w ∈ c, w ≠ [] ∧ ∀ ch ∈ w, ch.isWhitespace = false := by
    intro c hc w hw
    refine splitWordsGo_sound text [] (by simp) w ?_
    show w ∈ splitWords text
    rw [← h2]
    exact List.mem_flatten_of_mem hc hw
  refine ⟨?_, ?_, ?_⟩
  · intro L hL
    rw [hwt] at hL
    obtain ⟨c, hc, rfl⟩ := List.mem_map.mp hL
    obtain ⟨hcne, -⟩ := h3 c hc
    cases c with
    | nil => exact absurd rfl hcne
    | cons w rest =>
      exact joinLine_ne_nil w rest (hwords _ hc w (by simp)).1
  · rw [hwt, List.map_map]
    have hmapid : chunks.map (splitWords ∘ joinLine) = chunks.map id := by
      refine List.map_congr_left ?_
      intro c hc
      exact splitWords_joinLine c (hwords c hc)
    rw [hmapid, List.map_id]
    exact h2
  · intro hsp
    unfold wrap_text
    rw [splitWords_all_space text hsp]
    rfl

/-- Witness for `wrap_preserves_content`: a two-space text yields no lines. -/
theorem wrap_preserves_content_w :
    wrap_text w7sw 4 [' ', ' '] = [] :=
  (wrap_preserves_content w7sw 4 [' ', ' ']).2.2 (by decide)
